import Mathlib

/-!
Verification of the lazor beam-propagation core of `visualization_image.py`.

The file embeds the single-beam tracer `find_lazor_endpoint` and the
beam-set propagation worklist loop of `save_laser_image` as Lean
functions, and proves the specified properties about them.  The Python
`while` loops are embedded with an explicit fuel parameter; running out
of fuel yields `none`, so `some` results are exactly the results the
Python code computes.
-/

namespace Lazor

/-- Possible shapes of the Python value returned by a block's `interact`
method, per the interface contract: `None`, a single direction pair, or a
sequence of direction pairs. -/
inductive PyInteract where
  | none : PyInteract
  | pair : Int × Int → PyInteract
  | seq : List (Int × Int) → PyInteract
deriving DecidableEq, Repr

/-- Possible shapes of the third component of `find_lazor_endpoint`'s
result: either the Python value `None` passed through from `interact`,
or a list of direction pairs. -/
inductive PyDirs where
  | none : PyDirs
  | dirs : List (Int × Int) → PyDirs
deriving DecidableEq, Repr

/-- Python truthiness of a `PyDirs` value (`if new_dirs:`): `None` and the
empty list are falsy, a non-empty list is truthy. -/
def PyDirs.truthy : PyDirs → Bool
  | .none => false
  | .dirs l => !l.isEmpty

/-- `true` exactly when the value is a (possibly empty) list of direction
pairs rather than `None`. -/
def PyDirs.isSeq : PyDirs → Bool
  | .none => false
  | .dirs _ => true

/-- The list of direction pairs held by a `PyDirs` value (`None` holds
none). -/
def PyDirs.toList : PyDirs → List (Int × Int)
  | .none => []
  | .dirs l => l

/-- Modelled from the spec: the `Block` capability interface of
`blocks.py` (`ReflectBlock`, `OpaqueBlock`, `RefractBlock`), which is not
part of the analyzed source.  A block exposes `within_boundaries` and
`interact` exactly as consumed by the tracer. -/
structure Block where
  within_boundaries : Int → Int → Bool
  interact : Int × Int → Int × Int → PyInteract

/-- Modelled from the spec: the `Board` collaborator, which is not part of
the analyzed source.  It holds the ordered placed blocks, the original
textual grid, the target points, and the initial laser tuples
`(x, y, vx, vy)`. -/
structure Board where
  placed_blocks : List Block
  orig_grid : List (List Char)
  points : List (Int × Int)
  lasers : List (Int × Int × Int × Int)

/-- Modelled from the spec: `Board.get_placed_blocks` returns the ordered
collection of placed blocks. -/
def Board.get_placed_blocks (b : Board) : List Block :=
  b.placed_blocks

/-- Lines 33-39 of `visualization_image.py`: the shape normalization
applied to the value `interact` returned.  A truthy value whose first
element is a pair is kept as a list of pairs; a truthy single pair is
wrapped into a one-element list; falsy values (`None`, the empty
sequence) are left unchanged by the Python code, so `None` stays `None`
and an empty sequence is the empty list. -/
def normalizeDirections : PyInteract → PyDirs
  | .none => .none
  | .pair d => .dirs [d]
  | .seq l => .dirs l

/-- The loop of `find_lazor_endpoint` (lines 23-56), with explicit fuel.
State: current position `(x, y)` and the `is_first_turn` flag.  Each
iteration checks the `while` condition, advances by `(vx, vy)`, scans the
placed blocks in order for the first whose `within_boundaries` holds
(`break` at the first match), and on a collision returns the stepped
point with the normalized directions when it is inside the inclusive
bounds, or with the empty list when it is not.  When the condition fails
the current point is returned with the empty list. -/
def find_lazor_endpoint_aux (lazor_grid : Board) (vx vy grid_size_x grid_size_y : Int) :
    Nat → Int → Int → Bool → Option (Int × Int × PyDirs)
  | 0, _, _, _ => none
  | fuel + 1, x, y, is_first_turn =>
    if (0 < x ∧ x < grid_size_x ∧ 0 < y ∧ y < grid_size_y) ∨ is_first_turn = true then
      match (lazor_grid.get_placed_blocks).find?
          (fun block => block.within_boundaries (x + vx) (y + vy)) with
      | some block =>
        if 0 ≤ x + vx ∧ x + vx ≤ grid_size_x ∧ 0 ≤ y + vy ∧ y + vy ≤ grid_size_y then
          some (x + vx, y + vy, normalizeDirections (block.interact (vx, vy) (x + vx, y + vy)))
        else
          some (x + vx, y + vy, .dirs [])
      | none =>
        find_lazor_endpoint_aux lazor_grid vx vy grid_size_x grid_size_y fuel (x + vx) (y + vy) false
    else
      some (x, y, .dirs [])

/-- `find_lazor_endpoint(lazor_grid, x, y, vx, vy, grid_size_x, grid_size_y)`
(lines 6-56): trace a lazor from `(x, y)` along `(vx, vy)` until it exits
the grid or hits a block, starting with `is_first_turn = True`. -/
def find_lazor_endpoint (lazor_grid : Board) (x y vx vy grid_size_x grid_size_y : Int)
    (fuel : Nat) : Option (Int × Int × PyDirs) :=
  find_lazor_endpoint_aux lazor_grid vx vy grid_size_x grid_size_y fuel x y true

/-- A pending beam state `(x, y, vx, vy)` of the worklist. -/
structure Beam where
  x : Int
  y : Int
  vx : Int
  vy : Int
deriving DecidableEq, Repr

/-- A traced beam segment from `(sx, sy)` to `(ex, ey)`: the arrow drawn
at lines 142-146 for one worklist iteration. -/
structure Segment where
  sx : Int
  sy : Int
  ex : Int
  ey : Int
deriving DecidableEq, Repr

/-- The mutable state of the propagation loop of `save_laser_image`:
the (read-only) board, the `lazors` worklist, and the segments drawn so
far. -/
structure PropState where
  lazor_grid : Board
  lazors : List Beam
  segments : List Segment

/-- The worklist loop of `save_laser_image` (lines 130-154), with explicit
fuel.  `lazors.pop()` removes the last element; the traced segment is
recorded; new beams are appended only when the end point lies within the
inclusive bounds and `new_dirs` is truthy, one beam per direction, each
starting at the end point. -/
def save_laser_image_loop (trace_fuel : Nat) (x_size_grid y_size_grid : Int) :
    Nat → PropState → Option PropState
  | 0, s => if s.lazors.isEmpty then some s else none
  | fuel + 1, s =>
    match s.lazors.getLast? with
    | Option.none => some s
    | some b =>
      match find_lazor_endpoint s.lazor_grid b.x b.y b.vx b.vy x_size_grid y_size_grid
          trace_fuel with
      | Option.none => none
      | some (end_x, end_y, new_dirs) =>
        save_laser_image_loop trace_fuel x_size_grid y_size_grid fuel
          { lazor_grid := s.lazor_grid
            lazors := s.lazors.dropLast ++
              (if (0 ≤ end_x ∧ end_x ≤ x_size_grid ∧ 0 ≤ end_y ∧ end_y ≤ y_size_grid) ∧
                  new_dirs.truthy = true then
                new_dirs.toList.map (fun d => ⟨end_x, end_y, d.1, d.2⟩)
              else [])
            segments := s.segments ++ [⟨b.x, b.y, end_x, end_y⟩] }

/-- The beam-set propagation of `save_laser_image`: seed the worklist with
a copy of the board's lasers (line 130) and run the loop. -/
def propagate (lazor_grid : Board) (x_size_grid y_size_grid : Int)
    (trace_fuel loop_fuel : Nat) : Option PropState :=
  save_laser_image_loop trace_fuel x_size_grid y_size_grid loop_fuel
    { lazor_grid := lazor_grid
      lazors := lazor_grid.lasers.map (fun t => ⟨t.1, t.2.1, t.2.2.1, t.2.2.2⟩)
      segments := [] }

/-- Ghost-instrumented variant of `find_lazor_endpoint_aux` that follows
the exact same control flow and additionally returns the ordered list of
positions at which the block scan ran (every stepped position). -/
def find_lazor_endpoint_path (lazor_grid : Board) (vx vy grid_size_x grid_size_y : Int) :
    Nat → Int → Int → Bool → Option ((Int × Int × PyDirs) × List (Int × Int))
  | 0, _, _, _ => none
  | fuel + 1, x, y, is_first_turn =>
    if (0 < x ∧ x < grid_size_x ∧ 0 < y ∧ y < grid_size_y) ∨ is_first_turn = true then
      match (lazor_grid.get_placed_blocks).find?
          (fun block => block.within_boundaries (x + vx) (y + vy)) with
      | some block =>
        if 0 ≤ x + vx ∧ x + vx ≤ grid_size_x ∧ 0 ≤ y + vy ∧ y + vy ≤ grid_size_y then
          some ((x + vx, y + vy, normalizeDirections (block.interact (vx, vy) (x + vx, y + vy))),
            [(x + vx, y + vy)])
        else
          some ((x + vx, y + vy, .dirs []), [(x + vx, y + vy)])
      | none =>
        (find_lazor_endpoint_path lazor_grid vx vy grid_size_x grid_size_y fuel
            (x + vx) (y + vy) false).map
          (fun r => (r.1, (x + vx, y + vy) :: r.2))
    else
      some ((x, y, .dirs []), [])

/-- A termination measure for the stepping loop: the distance, in steps,
from the current position to the boundary that the nonzero direction
component is moving towards. -/
def traceMeasure (vx vy grid_size_x grid_size_y x y : Int) : Nat :=
  if vx = 1 then (grid_size_x - x).toNat
  else if vx = -1 then x.toNat
  else if vy = 1 then (grid_size_y - y).toNat
  else y.toNat

/-- Concrete Reflect block whose boundary is exactly the point `(2,2)` and
which maps the incoming direction `(1,1)` to the single outgoing direction
`(1,-1)`. -/
def reflectBlock : Block :=
  ⟨fun x y => x == 2 && y == 2,
    fun d _ => if d = ((1 : Int), (1 : Int)) then .pair (1, -1) else .none⟩

/-- Concrete board of the end-to-end scenario: one laser `(0,0,1,1)` and
the Reflect block at `(2,2)`. -/
def reflectBoard : Board :=
  { placed_blocks := [reflectBlock]
    orig_grid := []
    points := []
    lasers := [(0, 0, 1, 1)] }

/-- Concrete board with no blocks and one laser. -/
def emptyBoard : Board :=
  { placed_blocks := []
    orig_grid := []
    points := []
    lasers := [(0, 0, 1, 1)] }

/-- Concrete block occupying the point `(1,1)` whose `interact` always
returns the Python value `None` (absorption). -/
def noneBlock : Block :=
  ⟨fun x y => x == 1 && y == 1, fun _ _ => .none⟩

/-- Concrete board holding only `noneBlock`. -/
def noneBoard : Board :=
  { placed_blocks := [noneBlock]
    orig_grid := []
    points := []
    lasers := [] }

/-- Concrete block occupying the point `(1,1)` whose `interact` always
returns the single pair `(0,1)` (never `None`). -/
def pairBlock : Block :=
  ⟨fun x y => x == 1 && y == 1, fun _ _ => .pair (0, 1)⟩

/-- Concrete board holding only `pairBlock`. -/
def pairBoard : Board :=
  { placed_blocks := [pairBlock]
    orig_grid := []
    points := []
    lasers := [] }

/-- First of two concrete blocks whose boundaries both contain `(2,2)`. -/
def blockA : Block :=
  ⟨fun x y => x == 2 && y == 2, fun _ _ => .pair (1, -1)⟩

/-- Second of two concrete blocks whose boundaries both contain `(2,2)`,
with a different interaction than `blockA`. -/
def blockB : Block :=
  ⟨fun x y => x == 2 && y == 2, fun _ _ => .pair (-1, 1)⟩

/-- Concrete board with two blocks whose boundaries both contain the point
`(2,2)` but whose interactions differ. -/
def twoBlockBoard : Board :=
  { placed_blocks := [blockA, blockB]
    orig_grid := []
    points := []
    lasers := [] }

/-- Concrete block occupying the out-of-bounds point `(6,6)` (for bounds
`4 × 4`) whose `interact` returns a direction. -/
def outBlock : Block :=
  ⟨fun x y => x == 6 && y == 6, fun _ _ => .pair (1, 1)⟩

/-- Concrete board holding only `outBlock`. -/
def outBoard : Board :=
  { placed_blocks := [outBlock]
    orig_grid := []
    points := []
    lasers := [] }

/-- Claim C1 (counterexample): in the end-to-end scenario with bounds
`4 × 4`, laser `(0,0,1,1)` and a Reflect block at `(2,2)` mapping `(1,1)`
to `(1,-1)`, the propagation loop does NOT produce the claimed second
segment `(2,2) → (2,0)`: after the reflection at `(2,2)` the beam moves
along `(1,-1)` through `(3,1)` to `(4,0)`, so the second segment ends at
`(4,0)`. -/
theorem propagate_reflect_scenario_counterexample :
    (propagate reflectBoard 4 4 10 10).map (fun s => (s.segments, s.lazors)) =
      some ([⟨0, 0, 2, 2⟩, ⟨2, 2, 4, 0⟩], []) ∧
    ([(⟨0, 0, 2, 2⟩ : Segment), ⟨2, 2, 4, 0⟩] ≠ [⟨0, 0, 2, 2⟩, ⟨2, 2, 2, 0⟩]) := by
  exact ⟨by decide, by decide⟩

/-- Claim C1 (amended): in the end-to-end scenario with bounds `4 × 4`,
laser `(0,0,1,1)` and a Reflect block at `(2,2)` mapping `(1,1)` to
`(1,-1)`, the propagation loop produces exactly the segment from `(0,0)`
to `(2,2)` followed by the segment from `(2,2)` to `(4,0)` (the beam
exits at the right edge), and no further beam states are queued
afterwards (the final worklist is empty). -/
theorem propagate_reflect_scenario :
    (propagate reflectBoard 4 4 10 10).map (fun s => (s.segments, s.lazors)) =
      some ([⟨0, 0, 2, 2⟩, ⟨2, 2, 4, 0⟩], []) := by
  decide

/-- The instrumented tracer computes the same result as the plain tracer:
dropping the ghost path yields `find_lazor_endpoint_aux`. -/
lemma find_lazor_endpoint_path_fst (B : Board) (vx vy gsx gsy : Int) :
    ∀ (fuel : Nat) (x y : Int) (ft : Bool),
      (find_lazor_endpoint_path B vx vy gsx gsy fuel x y ft).map Prod.fst =
        find_lazor_endpoint_aux B vx vy gsx gsy fuel x y ft := by
  intro fuel
  induction fuel with
  | zero => intro x y ft; rfl
  | succ n ih =>
    intro x y ft
    simp only [find_lazor_endpoint_path, find_lazor_endpoint_aux]
    split
    · split
      · split <;> rfl
      · simp only [Option.map_map]
        exact ih (x + vx) (y + vy) false
    · rfl

/-- Every position at which the instrumented tracer scans for a collision,
and the end point it returns, lie on the ray `start + k • (vx, vy)`; the
scan positions have `k ≥ 1`, and so does the end point when the call
starts with `is_first_turn = true`. -/
lemma find_lazor_endpoint_path_spec (B : Board) (vx vy gsx gsy : Int) :
    ∀ (fuel : Nat) (x y : Int) (ft : Bool) (rp : (Int × Int × PyDirs) × List (Int × Int)),
      find_lazor_endpoint_path B vx vy gsx gsy fuel x y ft = some rp →
      (∃ k : Nat, (ft = true → 1 ≤ k) ∧
        rp.1.1 = x + (k : Int) * vx ∧ rp.1.2.1 = y + (k : Int) * vy) ∧
      ∀ p ∈ rp.2, ∃ k : Nat, 1 ≤ k ∧ p.1 = x + (k : Int) * vx ∧ p.2 = y + (k : Int) * vy := by
  intro fuel
  induction fuel with
  | zero =>
    intro x y ft rp h
    exact absurd h (by simp [find_lazor_endpoint_path])
  | succ n ih =>
    intro x y ft rp h
    simp only [find_lazor_endpoint_path] at h
    split at h
    · split at h
      · split at h <;>
        · obtain rfl := Option.some.inj h
          refine ⟨⟨1, fun _ => le_refl 1, by push_cast; ring, by push_cast; ring⟩, ?_⟩
          intro p hp
          rcases List.mem_cons.mp hp with rfl | hp
          · exact ⟨1, le_refl 1, by push_cast; ring, by push_cast; ring⟩
          · exact absurd hp (List.not_mem_nil p)
      · simp only [Option.map_eq_some'] at h
        obtain ⟨a, ha, rfl⟩ := h
        obtain ⟨⟨k, hkft, hx, hy⟩, hpath⟩ := ih (x + vx) (y + vy) false a ha
        constructor
        · refine ⟨k + 1, fun _ => Nat.succ_le_succ (Nat.zero_le _), ?_, ?_⟩
          · show a.1.1 = _
            rw [hx]; push_cast; ring
          · show a.1.2.1 = _
            rw [hy]; push_cast; ring
        · intro p hp
          rcases List.mem_cons.mp hp with rfl | hp
          · exact ⟨1, le_refl 1, by push_cast; ring, by push_cast; ring⟩
          · obtain ⟨k, hk1, hpx, hpy⟩ := hpath p hp
            refine ⟨k + 1, Nat.succ_le_succ (Nat.zero_le _), ?_, ?_⟩
            · rw [hpx]; push_cast; ring
            · rw [hpy]; push_cast; ring
    · rename_i hcond
      obtain rfl := Option.some.inj h
      refine ⟨⟨0, ?_, by push_cast; ring, by push_cast; ring⟩, ?_⟩
      · intro hft
        exact absurd (Or.inr hft) hcond
      · intro p hp
        exact absurd hp (List.not_mem_nil p)

/-- A point `k ≥ 1` steps along a nonzero direction differs from the start
point. -/
lemma advance_ne_start (x y vx vy : Int) (k : Nat) (hk : 1 ≤ k)
    (hv : ¬(vx = 0 ∧ vy = 0)) :
    (x + (k : Int) * vx, y + (k : Int) * vy) ≠ (x, y) := by
  intro h
  rw [Prod.mk.injEq] at h
  obtain ⟨h1, h2⟩ := h
  have hk0 : (k : Int) ≠ 0 := by
    have : (1 : Int) ≤ (k : Int) := by exact_mod_cast hk
    omega
  have hvx : vx = 0 := by
    have hz : (k : Int) * vx = 0 := by linarith
    rcases mul_eq_zero.mp hz with hbad | hok
    · exact absurd hbad hk0
    · exact hok
  have hvy : vy = 0 := by
    have hz : (k : Int) * vy = 0 := by linarith
    rcases mul_eq_zero.mp hz with hbad | hok
    · exact absurd hbad hk0
    · exact hok
  exact hv ⟨hvx, hvy⟩

/-- Claim C2: for every board, start point, direction with components in
`{-1,0,1}` and not both zero, and bounds: whenever the tracer returns, the
end point equals `(x + k*vx, y + k*vy)` for some `k ≥ 1` — at least one
step is taken even if the start is already on or outside the boundary —
so the end point differs from the start point; moreover every position at
which a collision is checked lies on the same straight ray with `k ≥ 1`,
so no collision is ever checked at the start point itself. -/
theorem find_lazor_endpoint_advances_along_direction
    (lazor_grid : Board) (x y vx vy grid_size_x grid_size_y : Int) (fuel : Nat)
    (hvx : vx = -1 ∨ vx = 0 ∨ vx = 1) (hvy : vy = -1 ∨ vy = 0 ∨ vy = 1)
    (hv : ¬(vx = 0 ∧ vy = 0)) (rp : (Int × Int × PyDirs) × List (Int × Int))
    (h : find_lazor_endpoint_path lazor_grid vx vy grid_size_x grid_size_y fuel x y true =
      some rp) :
    find_lazor_endpoint lazor_grid x y vx vy grid_size_x grid_size_y fuel = some rp.1 ∧
    (∃ k : Nat, 1 ≤ k ∧ rp.1.1 = x + (k : Int) * vx ∧ rp.1.2.1 = y + (k : Int) * vy) ∧
    (rp.1.1, rp.1.2.1) ≠ (x, y) ∧
    ∀ p ∈ rp.2,
      (∃ k : Nat, 1 ≤ k ∧ p.1 = x + (k : Int) * vx ∧ p.2 = y + (k : Int) * vy) ∧
        p ≠ (x, y) := by
  obtain ⟨⟨k, hkft, hx, hy⟩, hpath⟩ :=
    find_lazor_endpoint_path_spec lazor_grid vx vy grid_size_x grid_size_y fuel x y true rp h
  have hk1 : 1 ≤ k := hkft rfl
  refine ⟨?_, ⟨k, hk1, hx, hy⟩, ?_, ?_⟩
  · rw [find_lazor_endpoint, ← find_lazor_endpoint_path_fst, h]
    rfl
  · rw [hx, hy]
    exact advance_ne_start x y vx vy k hk1 hv
  · intro p hp
    obtain ⟨k, hk1, hpx, hpy⟩ := hpath p hp
    refine ⟨⟨k, hk1, hpx, hpy⟩, ?_⟩
    have := advance_ne_start x y vx vy k hk1 hv
    intro hbad
    apply this
    rw [← hpx, ← hpy, ← hbad]

/-- Witness for claim C2 at a concrete input: tracing the reflect-scenario
board from `(0,0)` along `(1,1)` ends at `(2,2) = (0,0) + 2·(1,1)`, a
point different from the start. -/
theorem find_lazor_endpoint_advances_along_direction_witness :
    find_lazor_endpoint reflectBoard 0 0 1 1 4 4 10 = some (2, 2, PyDirs.dirs [(1, -1)]) ∧
    ((2 : Int), (2 : Int), PyDirs.dirs [(1, -1)]).1 ≠ (0 : Int) :=
  ⟨(find_lazor_endpoint_advances_along_direction reflectBoard 0 0 1 1 4 4 10
      (Or.inr (Or.inr rfl)) (Or.inr (Or.inr rfl)) (by decide)
      ((2, 2, PyDirs.dirs [(1, -1)]), [(1, 1), (2, 2)]) (by decide)).1,
    by decide⟩

/-- `List.find?` over a list that starts with non-matching elements
followed by a matching one returns that first matching element, whatever
comes after it. -/
lemma find?_first_match {α : Type} (p : α → Bool) (L1 L2 : List α) (b : α)
    (hL1 : ∀ a ∈ L1, p a = false) (hb : p b = true) :
    (L1 ++ b :: L2).find? p = some b := by
  induction L1 with
  | nil => simp [List.find?_cons, hb]
  | cons a L ih =>
    have ha : p a = false := hL1 a (List.mem_cons_self a L)
    rw [List.cons_append, List.find?_cons, ha]
    exact ih fun a' ha' => hL1 a' (List.mem_cons_of_mem a ha')

/-- Claim C3: when the stepping loop finds its first block collision at a
point lying outside the inclusive bounds `[0, width] × [0, height]`, the
tracer returns that out-of-bounds collision point as-is together with the
empty outgoing-direction list, regardless of what the block's `interact`
would return, so no new beams can be spawned from it. -/
theorem find_lazor_endpoint_out_of_bounds_collision
    (lazor_grid : Board) (x y vx vy grid_size_x grid_size_y : Int) (fuel : Nat)
    (is_first_turn : Bool) (blk : Block)
    (hcond : (0 < x ∧ x < grid_size_x ∧ 0 < y ∧ y < grid_size_y) ∨ is_first_turn = true)
    (hfind : (lazor_grid.get_placed_blocks).find?
      (fun block => block.within_boundaries (x + vx) (y + vy)) = some blk)
    (hout : ¬(0 ≤ x + vx ∧ x + vx ≤ grid_size_x ∧ 0 ≤ y + vy ∧ y + vy ≤ grid_size_y)) :
    find_lazor_endpoint_aux lazor_grid vx vy grid_size_x grid_size_y (fuel + 1) x y
      is_first_turn = some (x + vx, y + vy, PyDirs.dirs []) := by
  simp only [find_lazor_endpoint_aux, hfind]
  rw [if_pos hcond, if_neg hout]

/-- Witness for claim C3 at a concrete input: from `(5,5)` (first turn)
along `(1,1)` with bounds `4 × 4`, the collision with `outBlock` at the
out-of-bounds point `(6,6)` is reported as `(6,6)` with no outgoing
directions, even though `outBlock.interact` returns a direction. -/
theorem find_lazor_endpoint_out_of_bounds_collision_witness :
    find_lazor_endpoint_aux outBoard 1 1 4 4 3 5 5 true = some (6, 6, PyDirs.dirs []) :=
  find_lazor_endpoint_out_of_bounds_collision outBoard 5 5 1 1 4 4 2 true outBlock
    (Or.inr rfl) rfl (by decide)

/-- Claim C6: when the boundaries of several placed blocks contain the
stepped position, the block that occurs earliest in the board's
`get_placed_blocks` order exclusively determines the result: the scan
stops at the first match, and the returned directions come from that
block's `interact` alone (the blocks after it do not appear in the
result). -/
theorem find_lazor_endpoint_first_collision_wins
    (lazor_grid : Board) (x y vx vy grid_size_x grid_size_y : Int) (fuel : Nat)
    (is_first_turn : Bool) (L1 L2 : List Block) (blk : Block)
    (hcond : (0 < x ∧ x < grid_size_x ∧ 0 < y ∧ y < grid_size_y) ∨ is_first_turn = true)
    (hblocks : lazor_grid.get_placed_blocks = L1 ++ blk :: L2)
    (hL1 : ∀ b ∈ L1, b.within_boundaries (x + vx) (y + vy) = false)
    (hblk : blk.within_boundaries (x + vx) (y + vy) = true) :
    find_lazor_endpoint_aux lazor_grid vx vy grid_size_x grid_size_y (fuel + 1) x y
      is_first_turn =
      some (x + vx, y + vy,
        if 0 ≤ x + vx ∧ x + vx ≤ grid_size_x ∧ 0 ≤ y + vy ∧ y + vy ≤ grid_size_y then
          normalizeDirections (blk.interact (vx, vy) (x + vx, y + vy))
        else PyDirs.dirs []) := by
  have hfind : (lazor_grid.get_placed_blocks).find?
      (fun block => block.within_boundaries (x + vx) (y + vy)) = some blk := by
    rw [hblocks]
    exact find?_first_match _ L1 L2 blk hL1 hblk
  simp only [find_lazor_endpoint_aux, hfind]
  rw [if_pos hcond]
  split <;> rfl

/-- Witness for claim C6 at a concrete input: on the board whose two
blocks both contain `(2,2)`, stepping from `(1,1)` along `(1,1)` yields
the directions of the first block `blockA` (namely `(1,-1)`), not those
of `blockB`. -/
theorem find_lazor_endpoint_first_collision_wins_witness :
    find_lazor_endpoint_aux twoBlockBoard 1 1 4 4 3 1 1 false =
      some (2, 2, PyDirs.dirs [(1, -1)]) :=
  (find_lazor_endpoint_first_collision_wins twoBlockBoard 1 1 1 1 4 4 2 false [] [blockB]
    blockA (Or.inl (by decide)) rfl (fun b hb => absurd hb (List.not_mem_nil b))
    (by decide)).trans (by decide)

/-- With unit-step direction components, a trace started with
`is_first_turn = false` ends inside the inclusive bounds or exactly at its
start position: from a strictly interior position one step cannot leave
the inclusive bounds. -/
lemma find_lazor_endpoint_aux_bounds (B : Board) (vx vy gsx gsy : Int)
    (hvx : -1 ≤ vx ∧ vx ≤ 1) (hvy : -1 ≤ vy ∧ vy ≤ 1) :
    ∀ (fuel : Nat) (x y : Int) (res : Int × Int × PyDirs),
      find_lazor_endpoint_aux B vx vy gsx gsy fuel x y false = some res →
      (0 ≤ res.1 ∧ res.1 ≤ gsx ∧ 0 ≤ res.2.1 ∧ res.2.1 ≤ gsy) ∨
        (res.1 = x ∧ res.2.1 = y) := by
  intro fuel
  induction fuel with
  | zero =>
    intro x y res h
    exact absurd h (by simp [find_lazor_endpoint_aux])
  | succ n ih =>
    intro x y res h
    simp only [find_lazor_endpoint_aux] at h
    split at h
    · rename_i hcond
      have hstrict : 0 < x ∧ x < gsx ∧ 0 < y ∧ y < gsy := by
        rcases hcond with hs | hft
        · exact hs
        · exact absurd hft (by simp)
      split at h
      · split at h
        · rename_i hin
          obtain rfl := Option.some.inj h
          exact Or.inl hin
        · rename_i hout
          exact absurd (by omega) hout
      · rcases ih (x + vx) (y + vy) res h with hin | hat
        · exact Or.inl hin
        · refine Or.inl ?_
          rw [hat.1, hat.2]
          omega
    · obtain rfl := Option.some.inj h
      exact Or.inr ⟨rfl, rfl⟩

/-- Claim C5: for every trace call with direction components in
`{-1,0,1}` and not both zero, the returned end point either lies within
the inclusive bounds `[0, width] × [0, height]`, or is the exact first
point reached during stepping — one step from the start — so the end
point never lies more than one step beyond the boundary past the last
strictly interior position. -/
theorem find_lazor_endpoint_bounds_containment
    (lazor_grid : Board) (x y vx vy grid_size_x grid_size_y : Int) (fuel : Nat)
    (hvx : -1 ≤ vx ∧ vx ≤ 1) (hvy : -1 ≤ vy ∧ vy ≤ 1) (hv : ¬(vx = 0 ∧ vy = 0))
    (res : Int × Int × PyDirs)
    (h : find_lazor_endpoint lazor_grid x y vx vy grid_size_x grid_size_y fuel = some res) :
    (0 ≤ res.1 ∧ res.1 ≤ grid_size_x ∧ 0 ≤ res.2.1 ∧ res.2.1 ≤ grid_size_y) ∨
      (res.1 = x + vx ∧ res.2.1 = y + vy) := by
  rw [find_lazor_endpoint] at h
  cases fuel with
  | zero => exact absurd h (by simp [find_lazor_endpoint_aux])
  | succ n =>
    simp only [find_lazor_endpoint_aux] at h
    split at h
    · split at h
      · split at h
        · rename_i hin
          obtain rfl := Option.some.inj h
          exact Or.inl hin
        · obtain rfl := Option.some.inj h
          exact Or.inr ⟨rfl, rfl⟩
      · rcases find_lazor_endpoint_aux_bounds lazor_grid vx vy grid_size_x grid_size_y hvx
            hvy n (x + vx) (y + vy) res h with hin | hat
        · exact Or.inl hin
        · exact Or.inr hat
    · rename_i hcond
      exact absurd (Or.inr trivial) hcond

/-- Witness for claim C5 at a concrete input: the trace of the
reflect-scenario board from `(0,0)` along `(1,1)` ends at `(2,2)`, which
lies within the inclusive bounds `[0,4] × [0,4]`. -/
theorem find_lazor_endpoint_bounds_containment_witness :
    (0 ≤ ((2 : Int), (2 : Int), PyDirs.dirs [((1 : Int), (-1 : Int))]).1 ∧
      ((2 : Int), (2 : Int), PyDirs.dirs [((1 : Int), (-1 : Int))]).1 ≤ 4 ∧
      0 ≤ ((2 : Int), (2 : Int), PyDirs.dirs [((1 : Int), (-1 : Int))]).2.1 ∧
      ((2 : Int), (2 : Int), PyDirs.dirs [((1 : Int), (-1 : Int))]).2.1 ≤ 4) ∨
    (((2 : Int), (2 : Int), PyDirs.dirs [((1 : Int), (-1 : Int))]).1 = 0 + 1 ∧
      ((2 : Int), (2 : Int), PyDirs.dirs [((1 : Int), (-1 : Int))]).2.1 = 0 + 1) :=
  find_lazor_endpoint_bounds_containment reflectBoard 0 0 1 1 4 4 10
    (by decide) (by decide) (by decide) (2, 2, PyDirs.dirs [(1, -1)]) (by decide)

/-- From a strictly interior position, one unit step along the nonzero
direction strictly decreases the distance to the boundary the direction
moves towards. -/
lemma traceMeasure_step (vx vy gsx gsy x y : Int)
    (hvx : -1 ≤ vx ∧ vx ≤ 1) (hvy : -1 ≤ vy ∧ vy ≤ 1) (hv : ¬(vx = 0 ∧ vy = 0))
    (hx : 0 < x ∧ x < gsx) (hy : 0 < y ∧ y < gsy) :
    traceMeasure vx vy gsx gsy (x + vx) (y + vy) < traceMeasure vx vy gsx gsy x y := by
  have hvx3 : vx = -1 ∨ vx = 0 ∨ vx = 1 := by omega
  have hvy3 : vy = -1 ∨ vy = 0 ∨ vy = 1 := by omega
  rcases hvx3 with rfl | rfl | rfl <;> rcases hvy3 with rfl | rfl | rfl <;>
    simp only [traceMeasure] <;> norm_num <;> omega

/-- With unit-step direction components, the stepping loop started with
`is_first_turn = false` returns within `traceMeasure` steps. -/
lemma find_lazor_endpoint_aux_isSome (B : Board) (vx vy gsx gsy : Int)
    (hvx : -1 ≤ vx ∧ vx ≤ 1) (hvy : -1 ≤ vy ∧ vy ≤ 1) (hv : ¬(vx = 0 ∧ vy = 0)) :
    ∀ (fuel : Nat) (x y : Int), traceMeasure vx vy gsx gsy x y < fuel →
      (find_lazor_endpoint_aux B vx vy gsx gsy fuel x y false).isSome = true := by
  intro fuel
  induction fuel with
  | zero => intro x y h; omega
  | succ n ih =>
    intro x y h
    simp only [find_lazor_endpoint_aux]
    split
    · rename_i hcond
      have hstrict : 0 < x ∧ x < gsx ∧ 0 < y ∧ y < gsy := by
        rcases hcond with hs | hft
        · exact hs
        · exact absurd hft (by simp)
      split
      · split <;> rfl
      · apply ih
        have := traceMeasure_step vx vy gsx gsy x y hvx hvy hv ⟨hstrict.1, hstrict.2.1⟩
          ⟨hstrict.2.2.1, hstrict.2.2.2⟩
        omega
    · rfl

/-- Claim C9: for every board, bounds, start point and direction with
components in `{-1,0,1}` and not both zero, the stepping loop of
`find_lazor_endpoint` terminates: some finite fuel makes the call return
a result (each step strictly advances along the nonzero direction, so
after the mandatory first step the loop either collides or leaves the
strict interior after finitely many steps). -/
theorem find_lazor_endpoint_terminates
    (lazor_grid : Board) (x y vx vy grid_size_x grid_size_y : Int)
    (hvx : -1 ≤ vx ∧ vx ≤ 1) (hvy : -1 ≤ vy ∧ vy ≤ 1) (hv : ¬(vx = 0 ∧ vy = 0)) :
    ∃ (fuel : Nat) (res : Int × Int × PyDirs),
      find_lazor_endpoint lazor_grid x y vx vy grid_size_x grid_size_y fuel = some res := by
  refine ⟨traceMeasure vx vy grid_size_x grid_size_y (x + vx) (y + vy) + 2, ?_⟩
  rw [← Option.isSome_iff_exists]
  rw [find_lazor_endpoint]
  simp only [find_lazor_endpoint_aux]
  split
  · split
    · split <;> rfl
    · exact find_lazor_endpoint_aux_isSome lazor_grid vx vy grid_size_x grid_size_y hvx hvy
        hv _ (x + vx) (y + vy) (Nat.lt_succ_self _)
  · rename_i hcond
    exact absurd (Or.inr trivial) hcond

/-- Witness for claim C9 at a concrete input: tracing the empty board from
`(0,0)` along `(1,1)` with bounds `4 × 4` terminates for some fuel. -/
theorem find_lazor_endpoint_terminates_witness :
    ∃ (fuel : Nat) (res : Int × Int × PyDirs),
      find_lazor_endpoint emptyBoard 0 0 1 1 4 4 fuel = some res :=
  find_lazor_endpoint_terminates emptyBoard 0 0 1 1 4 4 (by decide) (by decide) (by decide)

/-- Claim C4: one iteration of the worklist loop pops the last beam,
records its segment, and queues new beam states exactly when the traced
end point satisfies `0 ≤ end_x ≤ width` and `0 ≤ end_y ≤ height` and the
returned outgoing-direction value is a non-empty (truthy) sequence; in
that case exactly one new beam is queued per outgoing direction, each
starting at the end point, and otherwise (absorption included) nothing is
queued. -/
theorem save_laser_image_loop_queue_step
    (trace_fuel : Nat) (x_size_grid y_size_grid : Int) (fuel : Nat)
    (s : PropState) (L : List Beam) (b : Beam) (end_x end_y : Int) (new_dirs : PyDirs)
    (hlast : s.lazors = L ++ [b])
    (htrace : find_lazor_endpoint s.lazor_grid b.x b.y b.vx b.vy x_size_grid y_size_grid
      trace_fuel = some (end_x, end_y, new_dirs)) :
    save_laser_image_loop trace_fuel x_size_grid y_size_grid (fuel + 1) s =
      save_laser_image_loop trace_fuel x_size_grid y_size_grid fuel
        { lazor_grid := s.lazor_grid
          lazors := L ++
            (if (0 ≤ end_x ∧ end_x ≤ x_size_grid ∧ 0 ≤ end_y ∧ end_y ≤ y_size_grid) ∧
                new_dirs.truthy = true then
              new_dirs.toList.map (fun d => ⟨end_x, end_y, d.1, d.2⟩)
            else [])
          segments := s.segments ++ [⟨b.x, b.y, end_x, end_y⟩] } ∧
    ∀ q : Beam,
      q ∈ (if (0 ≤ end_x ∧ end_x ≤ x_size_grid ∧ 0 ≤ end_y ∧ end_y ≤ y_size_grid) ∧
              new_dirs.truthy = true then
            new_dirs.toList.map (fun d => (⟨end_x, end_y, d.1, d.2⟩ : Beam))
          else []) ↔
        ((0 ≤ end_x ∧ end_x ≤ x_size_grid ∧ 0 ≤ end_y ∧ end_y ≤ y_size_grid) ∧
          new_dirs.truthy = true ∧ ∃ d ∈ new_dirs.toList, q = ⟨end_x, end_y, d.1, d.2⟩) := by
  constructor
  · simp only [save_laser_image_loop, hlast, List.getLast?_concat, htrace,
      List.dropLast_concat]
  · intro q
    split
    · rename_i hc
      simp only [List.mem_map]
      constructor
      · rintro ⟨d, hd, rfl⟩
        exact ⟨hc.1, hc.2, d, hd, rfl⟩
      · rintro ⟨h1, h2, d, hd, rfl⟩
        exact ⟨d, hd, rfl⟩
    · rename_i hc
      constructor
      · intro hq
        exact absurd hq (List.not_mem_nil q)
      · rintro ⟨h1, h2, _⟩
        exact absurd ⟨h1, h2⟩ hc

/-- Witness for claim C4 at a concrete input: a beam on the empty board
exits at `(4,4)` with no outgoing directions, so its worklist entry is
consumed, its segment recorded, and nothing is queued. -/
theorem save_laser_image_loop_queue_step_witness :
    save_laser_image_loop 5 4 4 1 ⟨emptyBoard, [⟨0, 0, 1, 1⟩], []⟩ =
      save_laser_image_loop 5 4 4 0 ⟨emptyBoard, [], [⟨0, 0, 4, 4⟩]⟩ :=
  ((save_laser_image_loop_queue_step 5 4 4 0 ⟨emptyBoard, [⟨0, 0, 1, 1⟩], []⟩ []
    ⟨0, 0, 1, 1⟩ 4 4 (PyDirs.dirs []) rfl rfl).1).trans rfl

/-- Claim C7 (counterexample): the third component of the tracer's result
is NOT always a sequence: when a block's `interact` returns the Python
value `None` and the collision point is in bounds, `None` itself is
returned as the third component (the code only normalizes truthy values),
so an absorbed interaction via `None` is not reported as the empty
sequence. -/
theorem find_lazor_endpoint_none_dirs_counterexample :
    find_lazor_endpoint noneBoard 0 0 1 1 4 4 5 = some (1, 1, PyDirs.none) ∧
    PyDirs.isSeq PyDirs.none = false :=
  ⟨by decide, rfl⟩

/-- Claim C7 (amended): provided no placed block's `interact` ever returns
the Python value `None`, the third component of the tracer's result is
always a (possibly empty) sequence of direction pairs — a single pair is
normalized into a one-element sequence and an empty result stays the
empty sequence.  (When some `interact` returns `None` at an in-bounds
collision, `None` is passed through as-is; the caller treats it like the
empty sequence.) -/
theorem find_lazor_endpoint_dirs_shape
    (lazor_grid : Board) (x y vx vy grid_size_x grid_size_y : Int) (fuel : Nat)
    (hno : ∀ blk ∈ lazor_grid.get_placed_blocks, ∀ d p, blk.interact d p ≠ PyInteract.none)
    (res : Int × Int × PyDirs)
    (h : find_lazor_endpoint lazor_grid x y vx vy grid_size_x grid_size_y fuel = some res) :
    res.2.2.isSeq = true := by
  rw [find_lazor_endpoint] at h
  suffices haux : ∀ (n : Nat) (a b : Int) (ft : Bool) (r : Int × Int × PyDirs),
      find_lazor_endpoint_aux lazor_grid vx vy grid_size_x grid_size_y n a b ft = some r →
      r.2.2.isSeq = true from haux fuel x y true res h
  intro n
  induction n with
  | zero =>
    intro a b ft r hr
    exact absurd hr (by simp [find_lazor_endpoint_aux])
  | succ m ih =>
    intro a b ft r hr
    simp only [find_lazor_endpoint_aux] at hr
    split at hr
    · split at hr
      · rename_i blk hfind
        split at hr
        · obtain rfl := Option.some.inj hr
          have hmem : blk ∈ lazor_grid.get_placed_blocks :=
            List.mem_of_find?_eq_some hfind
          have hne := hno blk hmem (vx, vy) (a + vx, b + vy)
          show (normalizeDirections (blk.interact (vx, vy) (a + vx, b + vy))).isSeq = true
          cases hcase : blk.interact (vx, vy) (a + vx, b + vy) with
          | none => exact absurd hcase hne
          | pair d => rfl
          | seq l => rfl
        · obtain rfl := Option.some.inj hr
          rfl
      · exact ih (a + vx) (b + vy) false r hr
    · obtain rfl := Option.some.inj hr
      rfl

/-- Witness for claim C7 at a concrete input: on the board whose block
returns the single pair `(0,1)`, the trace from `(0,0)` along `(1,1)`
returns the one-element sequence `[(0,1)]` as its third component. -/
theorem find_lazor_endpoint_dirs_shape_witness :
    find_lazor_endpoint pairBoard 0 0 1 1 4 4 5 = some (1, 1, PyDirs.dirs [(0, 1)]) ∧
    PyDirs.isSeq ((1, 1, PyDirs.dirs [((0 : Int), (1 : Int))]) : Int × Int × PyDirs).2.2 =
      true :=
  ⟨by decide,
    find_lazor_endpoint_dirs_shape pairBoard 0 0 1 1 4 4 5
      (by intro blk hblk d p
          obtain rfl := List.mem_singleton.mp hblk
          show PyInteract.pair (0, 1) ≠ PyInteract.none
          decide)
      (1, 1, PyDirs.dirs [(0, 1)]) (by decide)⟩

/-- Claim C8 (counterexample): `find_lazor_endpoint` does NOT reject the
zero direction vector at entry: called with `vx = vy = 0` from a start
point that is not strictly inside the bounds, it proceeds to trace,
takes the mandatory first (zero-length) step and returns the normal
result `(x, y, [])` — no `InvalidDirection` failure exists in the code. -/
theorem find_lazor_endpoint_zero_direction_counterexample :
    find_lazor_endpoint emptyBoard 0 0 0 0 4 4 5 = some (0, 0, PyDirs.dirs []) := by
  decide

/-- With the zero direction vector, a start position strictly inside the
bounds and no block containing it, every iteration of the stepping loop
reproduces the same state, so the loop never terminates: the fuelled
embedding returns `none` for every fuel. -/
lemma find_lazor_endpoint_aux_zero_direction_diverges
    (lazor_grid : Board) (x y grid_size_x grid_size_y : Int)
    (hin : 0 < x ∧ x < grid_size_x ∧ 0 < y ∧ y < grid_size_y)
    (hnoblk : (lazor_grid.get_placed_blocks).find?
      (fun blk => blk.within_boundaries x y) = Option.none) :
    ∀ (fuel : Nat) (ft : Bool),
      find_lazor_endpoint_aux lazor_grid 0 0 grid_size_x grid_size_y fuel x y ft =
        Option.none := by
  intro fuel
  induction fuel with
  | zero => intro ft; rfl
  | succ n ih =>
    intro ft
    simp only [find_lazor_endpoint_aux, add_zero, hnoblk]
    rw [if_pos (Or.inl hin)]
    exact ih false

/-- Claim C8 (amended): `find_lazor_endpoint` performs no validation of
the direction vector.  With `(vx, vy) = (0, 0)` and no block containing
the start point, it proceeds to trace: if the start is not strictly
inside the bounds it returns `(x, y, [])` normally after the mandatory
first (zero-length) step, and if the start is strictly inside the loop
never terminates. -/
theorem find_lazor_endpoint_zero_direction_behavior
    (lazor_grid : Board) (x y grid_size_x grid_size_y : Int)
    (hnoblk : (lazor_grid.get_placed_blocks).find?
      (fun blk => blk.within_boundaries x y) = Option.none) :
    (¬(0 < x ∧ x < grid_size_x ∧ 0 < y ∧ y < grid_size_y) →
      ∀ fuel : Nat, find_lazor_endpoint lazor_grid x y 0 0 grid_size_x grid_size_y
        (fuel + 2) = some (x, y, PyDirs.dirs [])) ∧
    ((0 < x ∧ x < grid_size_x ∧ 0 < y ∧ y < grid_size_y) →
      ∀ fuel : Nat, find_lazor_endpoint lazor_grid x y 0 0 grid_size_x grid_size_y
        fuel = Option.none) := by
  constructor
  · intro hout fuel
    show find_lazor_endpoint_aux lazor_grid 0 0 grid_size_x grid_size_y (fuel + 1 + 1)
      x y true = some (x, y, PyDirs.dirs [])
    simp only [find_lazor_endpoint_aux, add_zero, hnoblk]
    rw [if_pos (Or.inr trivial)]
    rw [if_neg]
    intro hc
    rcases hc with hc | hc
    · exact hout hc
    · exact absurd hc (by simp)
  · intro hin fuel
    exact find_lazor_endpoint_aux_zero_direction_diverges lazor_grid x y grid_size_x
      grid_size_y hin hnoblk fuel true

/-- Witness for the amended claim C8 at a concrete input: on the empty
board with bounds `4 × 4`, the zero-direction call from the boundary
point `(0,0)` returns `(0, 0, [])` normally, and the zero-direction call
from the interior point `(2,2)` runs out of any amount of fuel. -/
theorem find_lazor_endpoint_zero_direction_behavior_witness :
    find_lazor_endpoint emptyBoard 0 0 0 0 4 4 3 = some (0, 0, PyDirs.dirs []) ∧
    find_lazor_endpoint emptyBoard 2 2 0 0 4 4 7 = Option.none :=
  ⟨(find_lazor_endpoint_zero_direction_behavior emptyBoard 0 0 4 4 rfl).1 (by decide) 1,
    (find_lazor_endpoint_zero_direction_behavior emptyBoard 2 2 4 4 rfl).2 (by decide) 7⟩

/-- The worklist loop never changes the board component of its state:
every iteration passes `lazor_grid` through unchanged. -/
lemma save_laser_image_loop_board (trace_fuel : Nat) (x_size_grid y_size_grid : Int) :
    ∀ (fuel : Nat) (s t : PropState),
      save_laser_image_loop trace_fuel x_size_grid y_size_grid fuel s = some t →
      t.lazor_grid = s.lazor_grid := by
  intro fuel
  induction fuel with
  | zero =>
    intro s t h
    simp only [save_laser_image_loop] at h
    split at h
    · obtain rfl := Option.some.inj h
      rfl
    · exact Option.noConfusion h
  | succ n ih =>
    intro s t h
    simp only [save_laser_image_loop] at h
    split at h
    · obtain rfl := Option.some.inj h
      rfl
    · split at h
      · exact Option.noConfusion h
      · exact (ih _ _ h).trans rfl


/-- Claim C10: neither the tracer nor the beam-propagation worklist loop
mutates the board: after a full propagation run the board's placed
blocks, `orig_grid`, `points` and `lasers` collections are the same as
before (the worklist is seeded from a copy of the lasers list, and every
loop iteration passes the board through read-only). -/
theorem propagate_preserves_board
    (lazor_grid : Board) (x_size_grid y_size_grid : Int) (trace_fuel loop_fuel : Nat)
    (t : PropState)
    (h : propagate lazor_grid x_size_grid y_size_grid trace_fuel loop_fuel = some t) :
    t.lazor_grid.placed_blocks = lazor_grid.placed_blocks ∧
    t.lazor_grid.orig_grid = lazor_grid.orig_grid ∧
    t.lazor_grid.points = lazor_grid.points ∧
    t.lazor_grid.lasers = lazor_grid.lasers := by
  have hb := save_laser_image_loop_board trace_fuel x_size_grid y_size_grid loop_fuel _ t h
  rw [hb]
  exact ⟨rfl, rfl, rfl, rfl⟩

/-- Witness for claim C10 at a concrete input: the full propagation run of
the reflect-scenario board leaves every board collection unchanged. -/
theorem propagate_preserves_board_witness :
    (⟨reflectBoard, [], [⟨0, 0, 2, 2⟩, ⟨2, 2, 4, 0⟩]⟩ :
        PropState).lazor_grid.placed_blocks = reflectBoard.placed_blocks ∧
    (⟨reflectBoard, [], [⟨0, 0, 2, 2⟩, ⟨2, 2, 4, 0⟩]⟩ :
        PropState).lazor_grid.orig_grid = reflectBoard.orig_grid ∧
    (⟨reflectBoard, [], [⟨0, 0, 2, 2⟩, ⟨2, 2, 4, 0⟩]⟩ :
        PropState).lazor_grid.points = reflectBoard.points ∧
    (⟨reflectBoard, [], [⟨0, 0, 2, 2⟩, ⟨2, 2, 4, 0⟩]⟩ :
        PropState).lazor_grid.lasers = reflectBoard.lasers :=
  propagate_preserves_board reflectBoard 4 4 10 10
    ⟨reflectBoard, [], [⟨0, 0, 2, 2⟩, ⟨2, 2, 4, 0⟩]⟩ rfl

end Lazor
